import Mathlib

/-!
Shallow embedding of the `CircuitBreaker` component of the api-gateway-v2
service (Go source in the repository README). The Go code is sequentialised:
every access to the breaker's fields happens under one mutex, so a single
`Execute` call is modelled as a pure function from the breaker value, the
current clock reading, and the (pre-determined) outcome of the wrapped
operation, to the new breaker value, the returned error, and the number of
times the wrapped operation was invoked during the call.

Field-name correspondence with the Go struct:
  state, failureCount, successCount, lastFailureTime,
  maxFailures, timeout, halfOpenTimeout.
The Go counters are `int` values that are only ever incremented or reset
to 0 starting from 0, so they are modelled as `Nat` (no overflow in range).
`time.Time` / `time.Duration` are modelled as `Int` nanosecond values;
`time.Since(t)` at clock reading `now` is `now - t`.
-/

namespace CircuitBreakerModel

/-- Go: `type State int` with constants `StateClosed`, `StateOpen`,
`StateHalfOpen`. -/
inductive State where
  | Closed
  | Open
  | HalfOpen
deriving DecidableEq, Repr

/-- Go: `func (s State) String() string`. -/
def State.toString : State → String
  | State.Closed => "CLOSED"
  | State.Open => "OPEN"
  | State.HalfOpen => "HALF-OPEN"

/-- Go: `type CircuitBreaker struct` (the mutex is not represented: the
model is the sequential behaviour of the locked sections). -/
structure CircuitBreaker where
  state : State
  failureCount : Nat
  successCount : Nat
  lastFailureTime : Int
  maxFailures : Nat
  timeout : Int
  halfOpenTimeout : Int
deriving DecidableEq, Repr

/-- Go: `func NewCircuitBreaker() *CircuitBreaker`.  `failureCount`,
`successCount` and `lastFailureTime` take Go zero values; durations are in
nanoseconds (`10 * time.Second`, `5 * time.Second`). -/
def NewCircuitBreaker : CircuitBreaker :=
  { state := State.Closed
    failureCount := 0
    successCount := 0
    lastFailureTime := 0
    maxFailures := 3
    timeout := 10000000000
    halfOpenTimeout := 5000000000 }

/-- Result of an `Execute` call: `nil`, the breaker's own
`fmt.Errorf("circuit breaker is OPEN")` sentinel, or the error value the
wrapped operation returned (carried unchanged, of caller-chosen type `ε`). -/
inductive ExecResult (ε : Type) where
  | ok
  | circuitOpen
  | opError (e : ε)
deriving DecidableEq, Repr

/-- Go: `func (cb *CircuitBreaker) recordFailure()`.  `now` is the clock
reading taken by `time.Now()` inside the call. -/
def recordFailure (cb : CircuitBreaker) (now : Int) : CircuitBreaker :=
  let cb1 := { cb with failureCount := cb.failureCount + 1, lastFailureTime := now }
  if cb1.state = State.HalfOpen then
    { cb1 with state := State.Open, failureCount := 0 }
  else if cb1.failureCount ≥ cb1.maxFailures then
    { cb1 with state := State.Open, failureCount := 0 }
  else
    cb1

/-- Go: `func (cb *CircuitBreaker) recordSuccess()`.  The probe-success
requirement is the hard-coded literal `2` in `cb.successCount >= 2`. -/
def recordSuccess (cb : CircuitBreaker) : CircuitBreaker :=
  let cb1 := { cb with failureCount := 0 }
  if cb1.state = State.HalfOpen then
    let cb2 := { cb1 with successCount := cb1.successCount + 1 }
    if cb2.successCount ≥ 2 then
      { cb2 with state := State.Closed, successCount := 0 }
    else
      cb2
  else
    cb1

/-- The part of Go `Execute` after the first unlock: the captured
`currentState` re-check, the invocation of `fn`, and the outcome
recording.  `fn = none` models an operation call that returns `nil`;
`fn = some e` models one that returns error `e`.  The third component
counts invocations of the wrapped operation. -/
def executeAfterCheck {ε : Type} (cb : CircuitBreaker) (now : Int)
    (fn : Option ε) : CircuitBreaker × ExecResult ε × Nat :=
  if cb.state = State.Open then
    (cb, ExecResult.circuitOpen, 0)
  else
    match fn with
    | some e => (recordFailure cb now, ExecResult.opError e, 1)
    | none => (recordSuccess cb, ExecResult.ok, 1)

/-- Go: `func (cb *CircuitBreaker) Execute(fn func() error) error`.
First locked section: if `Open` and `time.Since(lastFailureTime) >
timeout`, move to `HalfOpen` and reset `successCount`; if `Open` and not
elapsed, return the circuit-open error without calling `fn`.  Then the
captured-state re-check and the call to `fn` (`executeAfterCheck`). -/
def Execute {ε : Type} (cb : CircuitBreaker) (now : Int)
    (fn : Option ε) : CircuitBreaker × ExecResult ε × Nat :=
  if cb.state = State.Open then
    if now - cb.lastFailureTime > cb.timeout then
      executeAfterCheck { cb with state := State.HalfOpen, successCount := 0 } now fn
    else
      (cb, ExecResult.circuitOpen, 0)
  else
    executeAfterCheck cb now fn

/-- Go: `func (cb *CircuitBreaker) GetState() string`.  Modelled as
returning both the string it computes and the (unchanged) breaker, so the
absence of side effects is expressible. -/
def GetState (cb : CircuitBreaker) : String × CircuitBreaker :=
  (State.toString cb.state, cb)

/-- Folding `recordFailure` over a list of failure timestamps: a run of
consecutive recorded failures. -/
def recordFailures (cb : CircuitBreaker) (ts : List Int) : CircuitBreaker :=
  ts.foldl recordFailure cb

/-- The value the Go `Execute` stores in its local `currentState` just
before releasing the lock, as a function of the entry state and the clock:
`none` when the early circuit-open return fires and no capture is reached. -/
def capturedState (cb : CircuitBreaker) (now : Int) : Option State :=
  if cb.state = State.Open then
    if now - cb.lastFailureTime > cb.timeout then some State.HalfOpen
    else none
  else
    some cb.state

/-- `Execute` with the post-unlock `currentState == StateOpen` re-check
deleted: used to state that the re-check is dead code. -/
def ExecuteNoRecheck {ε : Type} (cb : CircuitBreaker) (now : Int)
    (fn : Option ε) : CircuitBreaker × ExecResult ε × Nat :=
  if cb.state = State.Open then
    if now - cb.lastFailureTime > cb.timeout then
      match fn with
      | some e =>
          (recordFailure { cb with state := State.HalfOpen, successCount := 0 } now,
            ExecResult.opError e, 1)
      | none =>
          (recordSuccess { cb with state := State.HalfOpen, successCount := 0 },
            ExecResult.ok, 1)
    else
      (cb, ExecResult.circuitOpen, 0)
  else
    match fn with
    | some e => (recordFailure cb now, ExecResult.opError e, 1)
    | none => (recordSuccess cb, ExecResult.ok, 1)

/-! ### Helper lemmas about the recording functions -/

lemma recordFailure_halfOpen (cb : CircuitBreaker) (t : Int)
    (h : cb.state = State.HalfOpen) :
    recordFailure cb t =
      { cb with state := State.Open, failureCount := 0, lastFailureTime := t } := by
  simp [recordFailure, h]

lemma recordFailure_closed_small (cb : CircuitBreaker) (t : Int)
    (h : cb.state = State.Closed) (hlt : cb.failureCount + 1 < cb.maxFailures) :
    recordFailure cb t =
      { cb with failureCount := cb.failureCount + 1, lastFailureTime := t } := by
  simp only [recordFailure, h]
  rw [if_neg (by simp), if_neg (by simpa using Nat.not_le.mpr hlt)]

lemma recordFailure_closed_trip (cb : CircuitBreaker) (t : Int)
    (h : cb.state = State.Closed) (hge : cb.maxFailures ≤ cb.failureCount + 1) :
    recordFailure cb t =
      { cb with state := State.Open, failureCount := 0, lastFailureTime := t } := by
  simp only [recordFailure, h]
  rw [if_neg (by simp), if_pos (by simpa using hge)]

lemma recordFailure_lastFailureTime (cb : CircuitBreaker) (t : Int) :
    (recordFailure cb t).lastFailureTime = t := by
  simp only [recordFailure]
  split
  · rfl
  · split <;> rfl

lemma recordSuccess_notHalfOpen (cb : CircuitBreaker)
    (h : cb.state ≠ State.HalfOpen) :
    recordSuccess cb = { cb with failureCount := 0 } := by
  simp [recordSuccess, h]

lemma recordSuccess_halfOpen_low (cb : CircuitBreaker)
    (h : cb.state = State.HalfOpen) (hlt : cb.successCount + 1 < 2) :
    recordSuccess cb =
      { cb with failureCount := 0, successCount := cb.successCount + 1 } := by
  simp only [recordSuccess, h]
  rw [if_pos trivial, if_neg (by simpa using Nat.not_le.mpr hlt)]

lemma recordSuccess_halfOpen_close (cb : CircuitBreaker)
    (h : cb.state = State.HalfOpen) (hge : 2 ≤ cb.successCount + 1) :
    recordSuccess cb =
      { cb with state := State.Closed, failureCount := 0, successCount := 0 } := by
  simp only [recordSuccess, h]
  rw [if_pos trivial, if_pos (by simpa using hge)]

lemma recordSuccess_failureCount (cb : CircuitBreaker) :
    (recordSuccess cb).failureCount = 0 := by
  simp only [recordSuccess]
  split
  · split <;> rfl
  · rfl

/-- A run of recorded failures that stays strictly under the threshold
keeps the breaker `Closed` and adds its length to the failure counter,
leaving the configuration and the success counter alone. -/
lemma recordFailures_closed (ts : List Int) :
    ∀ cb : CircuitBreaker, cb.state = State.Closed →
      cb.failureCount + ts.length < cb.maxFailures →
      (recordFailures cb ts).state = State.Closed ∧
        (recordFailures cb ts).failureCount = cb.failureCount + ts.length ∧
        (recordFailures cb ts).maxFailures = cb.maxFailures ∧
        (recordFailures cb ts).successCount = cb.successCount := by
  induction ts with
  | nil => intro cb h _; exact ⟨h, rfl, rfl, rfl⟩
  | cons t ts ih =>
      intro cb h hlt
      have hstep : recordFailure cb t =
          { cb with failureCount := cb.failureCount + 1, lastFailureTime := t } :=
        recordFailure_closed_small cb t h (by simp at hlt; omega)
      have hrec : recordFailures cb (t :: ts) = recordFailures (recordFailure cb t) ts := rfl
      rw [hrec, hstep]
      have := ih { cb with failureCount := cb.failureCount + 1, lastFailureTime := t }
        (by simpa using h) (by simp at hlt ⊢; omega)
      simpa [Nat.add_comm, Nat.add_assoc, Nat.add_left_comm] using this

lemma execute_notOpen_fail {ε : Type} (cb : CircuitBreaker) (now : Int) (e : ε)
    (h : cb.state ≠ State.Open) :
    Execute cb now (some e) = (recordFailure cb now, ExecResult.opError e, 1) := by
  unfold Execute executeAfterCheck
  rw [if_neg h, if_neg h]

lemma execute_notOpen_ok {ε : Type} (cb : CircuitBreaker) (now : Int)
    (h : cb.state ≠ State.Open) :
    Execute cb now (none : Option ε) = (recordSuccess cb, ExecResult.ok, 1) := by
  unfold Execute executeAfterCheck
  rw [if_neg h, if_neg h]

lemma execute_open_elapsed {ε : Type} (cb : CircuitBreaker) (now : Int) (fn : Option ε)
    (h : cb.state = State.Open) (hc : now - cb.lastFailureTime > cb.timeout) :
    Execute cb now fn =
      executeAfterCheck { cb with state := State.HalfOpen, successCount := 0 } now fn := by
  unfold Execute
  rw [if_pos h, if_pos hc]

/-! ### Example breaker values used by the witnesses -/

/-- The breaker freshly tripped by three consecutive failures at times
1, 2, 7: it is `Open` with `lastFailureTime = 7`. -/
def openBreakerEx : CircuitBreaker :=
  recordFailure (recordFailures NewCircuitBreaker [1, 2]) 7

/-- The tripped breaker after the cooldown elapsed and one successful
probe: it is `HalfOpen` with `successCount = 1`. -/
def halfOpenBreakerEx : CircuitBreaker :=
  (Execute openBreakerEx 10000000008 (none : Option Nat)).1

/-! ### Claim theorems -/

/-- C1: starting `Closed` with a zero counter, `maxFailures − 1`
consecutive recorded failures leave the breaker `Closed`, and the
`maxFailures`-th consecutive failure moves it to `Open`, sets
`lastFailureTime` to that failure's timestamp, and resets `failureCount`
to 0. -/
theorem closed_trip_at_threshold (cb : CircuitBreaker) (ts : List Int) (t : Int)
    (hstate : cb.state = State.Closed) (hcount : cb.failureCount = 0)
    (hpos : 0 < cb.maxFailures) (hlen : ts.length = cb.maxFailures - 1) :
    (recordFailures cb ts).state = State.Closed ∧
    (recordFailure (recordFailures cb ts) t).state = State.Open ∧
    (recordFailure (recordFailures cb ts) t).failureCount = 0 ∧
    (recordFailure (recordFailures cb ts) t).lastFailureTime = t := by
  obtain ⟨h1, h2, h3, _⟩ := recordFailures_closed ts cb hstate (by omega)
  have htrip := recordFailure_closed_trip (recordFailures cb ts) t h1 (by rw [h2, h3]; omega)
  rw [htrip]
  exact ⟨h1, rfl, rfl, rfl⟩

/-- Witness for C1 at the concrete breaker of the source configuration
(`maxFailures = 3`). -/
theorem closed_trip_at_threshold_witness :
    (recordFailures NewCircuitBreaker [1, 2]).state = State.Closed ∧
    (recordFailure (recordFailures NewCircuitBreaker [1, 2]) 7).state = State.Open ∧
    (recordFailure (recordFailures NewCircuitBreaker [1, 2]) 7).failureCount = 0 ∧
    (recordFailure (recordFailures NewCircuitBreaker [1, 2]) 7).lastFailureTime = 7 :=
  closed_trip_at_threshold NewCircuitBreaker [1, 2] 7 rfl rfl (by decide) (by decide)

/-- C2: while `Open` with elapsed time since `lastFailureTime` strictly
below `timeout`, `Execute` returns the circuit-open error, performs zero
invocations of the wrapped operation, and leaves every field of the
breaker unchanged. -/
theorem open_within_cooldown_rejects {ε : Type} (cb : CircuitBreaker) (now : Int)
    (fn : Option ε) (hstate : cb.state = State.Open)
    (hcool : now - cb.lastFailureTime < cb.timeout) :
    Execute cb now fn = (cb, ExecResult.circuitOpen, 0) := by
  unfold Execute
  rw [if_pos hstate, if_neg (by omega)]

/-- Witness for C2: the freshly tripped breaker refuses a call 1ns after
the trip. -/
theorem open_within_cooldown_rejects_witness :
    Execute openBreakerEx 8 (some (42 : Nat)) =
      (openBreakerEx, ExecResult.circuitOpen, 0) :=
  open_within_cooldown_rejects openBreakerEx 8 (some 42) (by decide) (by decide)

/-- C3: while `Open` with elapsed time strictly above `timeout`,
`Execute` proceeds exactly as the rest of the call body run on the
breaker moved to `HalfOpen` with `successCount` reset to 0, and that same
call invokes the wrapped operation exactly once. -/
theorem open_after_cooldown_probes {ε : Type} (cb : CircuitBreaker) (now : Int)
    (fn : Option ε) (hstate : cb.state = State.Open)
    (hcool : now - cb.lastFailureTime > cb.timeout) :
    Execute cb now fn =
      executeAfterCheck { cb with state := State.HalfOpen, successCount := 0 } now fn ∧
    (Execute cb now fn).2.2 = 1 := by
  have h1 := execute_open_elapsed cb now fn hstate hcool
  refine ⟨h1, ?_⟩
  rw [h1]
  unfold executeAfterCheck
  rw [if_neg (by simp)]
  cases fn <;> rfl

/-- Witness for C3: the tripped breaker probes at 10000000001 ns after
the trip. -/
theorem open_after_cooldown_probes_witness :
    (Execute openBreakerEx 10000000008 (none : Option Nat) =
      executeAfterCheck { openBreakerEx with state := State.HalfOpen, successCount := 0 }
        10000000008 none) ∧
    (Execute openBreakerEx 10000000008 (none : Option Nat)).2.2 = 1 :=
  open_after_cooldown_probes openBreakerEx 10000000008 none (by decide) (by decide)

/-- C4: a probe that fails while the breaker is `HalfOpen` is invoked
once, its error is returned, and the breaker moves to `Open` with
`failureCount` reset to 0 and `lastFailureTime` updated; no other field
(in particular `successCount`) is touched and no threshold is consulted. -/
theorem halfOpen_probe_failure_reopens {ε : Type} (cb : CircuitBreaker) (now : Int)
    (e : ε) (hstate : cb.state = State.HalfOpen) :
    Execute cb now (some e) =
      ({ cb with state := State.Open, failureCount := 0, lastFailureTime := now },
        ExecResult.opError e, 1) := by
  rw [execute_notOpen_fail cb now e (by rw [hstate]; simp),
    recordFailure_halfOpen cb now hstate]

/-- Witness for C4 at the `HalfOpen` example breaker. -/
theorem halfOpen_probe_failure_reopens_witness :
    Execute halfOpenBreakerEx 11000000000 (some (5 : Nat)) =
      ({ halfOpenBreakerEx with
          state := State.Open
          failureCount := 0
          lastFailureTime := 11000000000 },
        ExecResult.opError 5, 1) :=
  halfOpen_probe_failure_reopens halfOpenBreakerEx 11000000000 5 (by decide)

/-- C5: a probe that succeeds while the breaker is `HalfOpen` is invoked
once and its success is recorded: `failureCount` is cleared and
`successCount` increments; when the incremented count reaches the
hard-coded requirement of 2 the breaker moves to `Closed` with both
counters 0, and below it the breaker stays `HalfOpen`. -/
theorem halfOpen_probe_success_counts (cb : CircuitBreaker) (now : Int)
    (hstate : cb.state = State.HalfOpen) :
    Execute cb now (none : Option Unit) = (recordSuccess cb, ExecResult.ok, 1) ∧
    recordSuccess cb =
      (if 2 ≤ cb.successCount + 1 then
        { cb with state := State.Closed, failureCount := 0, successCount := 0 }
      else
        { cb with failureCount := 0, successCount := cb.successCount + 1 }) := by
  refine ⟨execute_notOpen_ok cb now (by rw [hstate]; simp), ?_⟩
  by_cases hge : 2 ≤ cb.successCount + 1
  · rw [if_pos hge, recordSuccess_halfOpen_close cb hstate hge]
  · rw [if_neg hge, recordSuccess_halfOpen_low cb hstate (by omega)]

/-- Witness for C5 at the `HalfOpen` example breaker (whose success count
is 1, so this probe success closes the circuit). -/
theorem halfOpen_probe_success_counts_witness :
    Execute halfOpenBreakerEx 12000000000 (none : Option Unit) =
      (recordSuccess halfOpenBreakerEx, ExecResult.ok, 1) ∧
    recordSuccess halfOpenBreakerEx =
      (if 2 ≤ halfOpenBreakerEx.successCount + 1 then
        { halfOpenBreakerEx with
            state := State.Closed
            failureCount := 0
            successCount := 0 }
      else
        { halfOpenBreakerEx with
            failureCount := 0
            successCount := halfOpenBreakerEx.successCount + 1 }) :=
  halfOpen_probe_success_counts halfOpenBreakerEx 12000000000 (by decide)

/-- C6 counterexample: leaving `HalfOpen` towards `Open` via a recorded
probe failure does NOT reset `successCount`: at the reachable example
breaker (`HalfOpen`, `successCount = 1`) the count is still 1 — not 0 —
after the transition to `Open`. -/
theorem halfOpen_reopen_keeps_successes_cex :
    halfOpenBreakerEx.state = State.HalfOpen ∧
    halfOpenBreakerEx.successCount = 1 ∧
    (recordFailure halfOpenBreakerEx 11000000001).state = State.Open ∧
    (recordFailure halfOpenBreakerEx 11000000001).successCount = 1 ∧
    ¬ (recordFailure halfOpenBreakerEx 11000000001).successCount = 0 := by
  decide

/-- C6 amended: `successCount` is 0 after the `HalfOpen` → `Closed`
transition, is left unchanged (not reset) by the `HalfOpen` → `Open`
transition taken on a probe failure, and is reset to 0 whenever the
breaker enters `HalfOpen` from `Open` inside `Execute`. -/
theorem successCount_reset_policy (cb cb2 : CircuitBreaker) (t now : Int)
    (fn : Option Unit) (h : cb.state = State.HalfOpen)
    (h2 : cb2.state = State.Open)
    (hcool : now - cb2.lastFailureTime > cb2.timeout) :
    ((recordSuccess cb).state = State.Closed → (recordSuccess cb).successCount = 0) ∧
    ((recordFailure cb t).state = State.Open ∧
      (recordFailure cb t).successCount = cb.successCount) ∧
    Execute cb2 now fn =
      executeAfterCheck { cb2 with state := State.HalfOpen, successCount := 0 } now fn := by
  refine ⟨?_, ?_, execute_open_elapsed cb2 now fn h2 hcool⟩
  · intro hc
    by_cases hge : 2 ≤ cb.successCount + 1
    · rw [recordSuccess_halfOpen_close cb h hge]
    · rw [recordSuccess_halfOpen_low cb h (by omega)] at hc
      simp [h] at hc
  · rw [recordFailure_halfOpen cb t h]
    exact ⟨rfl, rfl⟩

/-- Witness for the amended C6 at the example breakers. -/
theorem successCount_reset_policy_witness :
    ((recordSuccess halfOpenBreakerEx).state = State.Closed →
      (recordSuccess halfOpenBreakerEx).successCount = 0) ∧
    ((recordFailure halfOpenBreakerEx 3).state = State.Open ∧
      (recordFailure halfOpenBreakerEx 3).successCount = halfOpenBreakerEx.successCount) ∧
    Execute openBreakerEx 10000000009 (none : Option Unit) =
      executeAfterCheck { openBreakerEx with state := State.HalfOpen, successCount := 0 }
        10000000009 none :=
  successCount_reset_policy halfOpenBreakerEx openBreakerEx 3 10000000009 none
    (by decide) (by decide) (by decide)

/-- C7: any recorded success resets `failureCount` to 0 in every state;
hence from `Closed` with a zero counter, `maxFailures − 1` failures, one
success, then `maxFailures − 1` failures keep the breaker `Closed`
throughout — the breaker never trips to `Open`. -/
theorem success_resets_failures_no_trip (cb cb3 : CircuitBreaker)
    (ts1 ts2 : List Int)
    (hstate : cb.state = State.Closed) (hcount : cb.failureCount = 0)
    (hpos : 0 < cb.maxFailures)
    (hl1 : ts1.length = cb.maxFailures - 1) (hl2 : ts2.length = cb.maxFailures - 1) :
    (recordSuccess cb3).failureCount = 0 ∧
    (recordFailures cb ts1).state = State.Closed ∧
    (recordSuccess (recordFailures cb ts1)).state = State.Closed ∧
    (recordSuccess (recordFailures cb ts1)).failureCount = 0 ∧
    (recordFailures (recordSuccess (recordFailures cb ts1)) ts2).state = State.Closed := by
  obtain ⟨h1, h2, h3, _⟩ := recordFailures_closed ts1 cb hstate (by omega)
  have hsa : recordSuccess (recordFailures cb ts1) =
      { recordFailures cb ts1 with failureCount := 0 } :=
    recordSuccess_notHalfOpen (recordFailures cb ts1) (by rw [h1]; simp)
  have hstate2 : (recordSuccess (recordFailures cb ts1)).state = State.Closed := by
    rw [hsa]; simpa using h1
  refine ⟨recordSuccess_failureCount cb3, h1, hstate2, recordSuccess_failureCount _, ?_⟩
  have hrun2 := recordFailures_closed ts2 (recordSuccess (recordFailures cb ts1)) hstate2
    (by rw [recordSuccess_failureCount, hsa]; simpa [h3] using by omega)
  exact hrun2.1

/-- Witness for C7 at the source configuration: 2 failures, 1 success,
2 failures from a fresh breaker never trip it. -/
theorem success_resets_failures_no_trip_witness :
    (recordSuccess halfOpenBreakerEx).failureCount = 0 ∧
    (recordFailures NewCircuitBreaker [1, 2]).state = State.Closed ∧
    (recordSuccess (recordFailures NewCircuitBreaker [1, 2])).state = State.Closed ∧
    (recordSuccess (recordFailures NewCircuitBreaker [1, 2])).failureCount = 0 ∧
    (recordFailures (recordSuccess (recordFailures NewCircuitBreaker [1, 2]))
      [10, 11]).state = State.Closed :=
  success_resets_failures_no_trip NewCircuitBreaker halfOpenBreakerEx [1, 2] [10, 11]
    rfl rfl (by decide) (by decide) (by decide)

/-- C9: `GetState` returns the string form of the current state and has
no side effect: every field of the breaker it hands back is the one it
was given. -/
theorem getState_no_side_effect (cb : CircuitBreaker) :
    (GetState cb).1 = State.toString cb.state ∧
    (GetState cb).2.state = cb.state ∧
    (GetState cb).2.failureCount = cb.failureCount ∧
    (GetState cb).2.successCount = cb.successCount ∧
    (GetState cb).2.lastFailureTime = cb.lastFailureTime ∧
    (GetState cb).2.maxFailures = cb.maxFailures ∧
    (GetState cb).2.timeout = cb.timeout ∧
    (GetState cb).2.halfOpenTimeout = cb.halfOpenTimeout :=
  ⟨rfl, rfl, rfl, rfl, rfl, rfl, rfl, rfl⟩

/-- C8: on every `Execute` call whose wrapped operation fails, either the
operation was invoked (once), its error comes back to the caller
unchanged, and the failure was recorded (`lastFailureTime` takes the
call's clock reading) — or the call was refused outright: zero
invocations, the circuit-open sentinel as the only breaker-originated
error, and an untouched breaker. -/
theorem execute_error_propagation {ε : Type} (cb : CircuitBreaker) (now : Int)
    (e : ε) :
    ((Execute cb now (some e)).2.2 = 1 ∧
      (Execute cb now (some e)).2.1 = ExecResult.opError e ∧
      (Execute cb now (some e)).1.lastFailureTime = now) ∨
    ((Execute cb now (some e)).2.2 = 0 ∧
      (Execute cb now (some e)).2.1 = ExecResult.circuitOpen ∧
      (Execute cb now (some e)).1 = cb) := by
  by_cases hs : cb.state = State.Open
  · by_cases hc : now - cb.lastFailureTime > cb.timeout
    · left
      have h1 : Execute cb now (some e) =
          (recordFailure { cb with state := State.HalfOpen, successCount := 0 } now,
            ExecResult.opError e, 1) := by
        rw [execute_open_elapsed cb now (some e) hs hc]
        unfold executeAfterCheck
        rw [if_neg (by simp)]
      rw [h1]
      exact ⟨rfl, rfl, recordFailure_lastFailureTime _ _⟩
    · right
      have h1 : Execute cb now (some e) = (cb, ExecResult.circuitOpen, 0) := by
        unfold Execute
        rw [if_pos hs, if_neg hc]
      rw [h1]
      exact ⟨rfl, rfl, rfl⟩
  · left
    rw [execute_notOpen_fail cb now e hs]
    exact ⟨rfl, rfl, recordFailure_lastFailureTime _ _⟩

/-- C10: the state the Go code captures in `currentState` before
unlocking is never `Open`, so the post-unlock re-check is dead code
(`Execute` equals the variant with the re-check deleted), and the wrapped
operation is invoked exactly when the captured state is `Closed` or
`HalfOpen`. -/
theorem captured_state_never_open {ε : Type} (cb : CircuitBreaker) (now : Int)
    (fn : Option ε) :
    capturedState cb now ≠ some State.Open ∧
    Execute cb now fn = ExecuteNoRecheck cb now fn ∧
    ((Execute cb now fn).2.2 = 1 ↔
      capturedState cb now = some State.Closed ∨
        capturedState cb now = some State.HalfOpen) := by
  by_cases hs : cb.state = State.Open
  · by_cases hc : now - cb.lastFailureTime > cb.timeout
    · have hcap : capturedState cb now = some State.HalfOpen := by
        unfold capturedState
        rw [if_pos hs, if_pos hc]
      have hex : Execute cb now fn =
          executeAfterCheck { cb with state := State.HalfOpen, successCount := 0 } now fn :=
        execute_open_elapsed cb now fn hs hc
      refine ⟨by rw [hcap]; simp, ?_, ?_⟩
      · rw [hex]
        unfold executeAfterCheck ExecuteNoRecheck
        rw [if_neg (by simp), if_pos hs, if_pos hc]
      · rw [hex]
        unfold executeAfterCheck
        rw [if_neg (by simp), hcap]
        cases fn <;> simp
    · have hcap : capturedState cb now = none := by
        unfold capturedState
        rw [if_pos hs, if_neg hc]
      have hex : Execute cb now fn = (cb, ExecResult.circuitOpen, 0) := by
        unfold Execute
        rw [if_pos hs, if_neg hc]
      refine ⟨by rw [hcap]; simp, ?_, ?_⟩
      · rw [hex]
        unfold ExecuteNoRecheck
        rw [if_pos hs, if_neg hc]
      · rw [hex, hcap]
        simp
  · have hcap : capturedState cb now = some cb.state := by
      unfold capturedState
      rw [if_neg hs]
    have hor : cb.state = State.Closed ∨ cb.state = State.HalfOpen := by
      cases h2 : cb.state with
      | Closed => exact Or.inl rfl
      | Open => exact absurd h2 hs
      | HalfOpen => exact Or.inr rfl
    refine ⟨by rw [hcap]; simpa using hs, ?_, ?_⟩
    · unfold Execute executeAfterCheck ExecuteNoRecheck
      rw [if_neg hs, if_neg hs, if_neg hs]
    · unfold Execute executeAfterCheck
      rw [if_neg hs, if_neg hs, hcap]
      cases fn <;> simpa using hor

end CircuitBreakerModel
